import Mathlib

/-!
Verification of the SEC filing retrieval pipeline (`SECFilingAgent` in
`sec_forms_downloader.py`): a shallow embedding of the CIK resolver, the two
feed loaders (`_load_recent_entries`, `_load_historical_entries`) and the
aggregator (`get_filings`), together with theorems settling the specified
properties.

Dates are embedded as proleptic-Gregorian day numbers (Python's
`date.toordinal`: day 1 = 0001-01-01), so `timedelta(days = n)` subtraction
and date comparison are plain `Nat` operations.  Strings are compared by code
point, as Python compares them.
-/

/-- Decidable equality for `Except`, by cases on the two constructors. -/
instance {ε : Type u} {α : Type v} [DecidableEq ε] [DecidableEq α] :
    DecidableEq (Except ε α) := fun a b =>
  match a, b with
  | .ok x, .ok y =>
    if h : x = y then isTrue (by rw [h]) else isFalse (by simp [h])
  | .error x, .error y =>
    if h : x = y then isTrue (by rw [h]) else isFalse (by simp [h])
  | .ok _, .error _ => isFalse (by simp)
  | .error _, .ok _ => isFalse (by simp)

namespace SECAgent

/-! ### Calendar arithmetic (embedding of `datetime.date`) -/

/-- Gregorian leap-year test, as `calendar.isleap`. -/
def isLeapYear (y : Nat) : Bool := y % 4 == 0 && (y % 100 != 0 || y % 400 == 0)

/-- Number of days in month `m` (1..12) of year `y`. -/
def daysInMonth (y m : Nat) : Nat :=
  if m = 2 then (if isLeapYear y then 29 else 28)
  else if m = 4 ∨ m = 6 ∨ m = 9 ∨ m = 11 then 30
  else 31

/-- Days in year `y` that precede the first day of month `m`. -/
def daysBeforeMonth (y m : Nat) : Nat :=
  ((List.range (m - 1)).map (fun k => daysInMonth y (k + 1))).sum

/-- Day number of the calendar date `y-m-d`, as Python's `date.toordinal`
(proleptic Gregorian, `0001-01-01` is day 1). -/
def toOrdinal (y m d : Nat) : Nat :=
  365 * (y - 1) + (y - 1) / 4 + (y - 1) / 400 - (y - 1) / 100 + daysBeforeMonth y m + d

/-! ### ISO date parsing (embedding of `datetime.strptime(s, "%Y-%m-%d")`)

CPython's `_strptime` matches `%Y` as exactly four digits and `%m`/`%d` as
one or two digits constrained to 1..12 / 1..31, requires the whole string to
be consumed, and the `datetime` constructor then checks the day against the
month length and the year against 1..9999. -/

/-- Numeric value of an ASCII digit character. -/
def digitVal (c : Char) : Nat := c.toNat - 48

/-- Greedily read exactly four digits (the `%Y` directive). -/
def parse4Digits : List Char → Option (Nat × List Char)
  | a :: b :: c :: d :: rest =>
    if a.isDigit && b.isDigit && c.isDigit && d.isDigit then
      some (1000 * digitVal a + 100 * digitVal b + 10 * digitVal c + digitVal d, rest)
    else none
  | _ => none

/-- Greedily read one or two digits (the `%m` and `%d` directives). -/
def parse1or2Digits : List Char → Option (Nat × List Char)
  | [] => none
  | [a] => if a.isDigit then some (digitVal a, []) else none
  | a :: b :: rest =>
    if a.isDigit then
      if b.isDigit then some (10 * digitVal a + digitVal b, rest)
      else some (digitVal a, b :: rest)
    else none

/-- Parse a complete `%Y-%m-%d` string (as a character list) into a validated
calendar date, `none` on any mismatch — the embedding of
`datetime.strptime(s, "%Y-%m-%d").date()` raising `ValueError`. -/
def parseYMD (l : List Char) : Option (Nat × Nat × Nat) :=
  match parse4Digits l with
  | none => none
  | some (y, r1) =>
    match r1 with
    | '-' :: r2 =>
      match parse1or2Digits r2 with
      | none => none
      | some (m, r3) =>
        if 1 ≤ m ∧ m ≤ 12 then
          match r3 with
          | '-' :: r4 =>
            match parse1or2Digits r4 with
            | none => none
            | some (d, r5) =>
              if 1 ≤ d ∧ d ≤ 31 then
                match r5 with
                | [] =>
                  if 1 ≤ y ∧ d ≤ daysInMonth y m then some (y, m, d) else none
                | _ :: _ => none
              else none
          | _ => none
        else none
    | _ => none

/-- The part of the character list before the first `'T'`
(`date_str.split('T')[0]`). -/
def takeUntilT : List Char → List Char
  | [] => []
  | c :: rest => if c = 'T' then [] else c :: takeUntilT rest

/-- Embedding of line 185 of the source:
`datetime.strptime(date_str.split('T')[0], '%Y-%m-%d').date()`, returning the
day number of the parsed date, or `none` where Python raises `ValueError`. -/
def parseFilingDate (s : String) : Option Nat :=
  (parseYMD (takeUntilT s.toList)).map (fun t => toOrdinal t.1 t.2.1 t.2.2)

/-! ### String utilities (code-point semantics, as Python) -/

/-- Python's lexicographic comparison of strings, on character lists:
compare code points position by position, a proper prefix is smaller. -/
def charListLt : List Char → List Char → Bool
  | [], [] => false
  | [], _ :: _ => true
  | _ :: _, [] => false
  | a :: as, b :: bs =>
    if a.toNat < b.toNat then true
    else if b.toNat < a.toNat then false
    else charListLt as bs

/-- Strict lexicographic order on strings (Python `<`). -/
def strLt (a b : String) : Bool := charListLt a.toList b.toList

/-- Lexicographic `≤` on strings (Python `<=`), as the negation of the
reversed strict order. -/
def strLe (a b : String) : Bool := !(strLt b a)

/-- `acc.replace('-', '')`: remove every dash. -/
def removeDashes (s : String) : String :=
  String.mk (s.toList.filter (fun c => !(c == '-')))

/-- ASCII uppercasing of one character, as Python `str.upper` acts on the
ASCII range (tickers are ASCII). -/
def charUpper (c : Char) : Char :=
  if 97 ≤ c.toNat ∧ c.toNat ≤ 122 then Char.ofNat (c.toNat - 32) else c

/-- `ticker.upper()` on ASCII strings. -/
def pyUpper (s : String) : String := String.mk (s.toList.map charUpper)

/-- Python `str(x)` for an optional string: `None` renders as `"None"`
inside an f-string. -/
def pyStrOpt : Option String → String
  | none => "None"
  | some s => s

/-- `int(s)` on a decimal digit string (the shape the CIK map produces:
`str(v['cik_str']).zfill(10)`); `none` where Python raises `ValueError`. -/
def pyInt (s : String) : Option Nat :=
  if s.toList ≠ [] ∧ s.toList.all Char.isDigit then
    some (s.toList.foldl (fun a c => 10 * a + digitVal c) 0)
  else none

/-! ### Data model -/

/-- A raw filing record as produced by either feed loader: the dict built at
lines 114–121 / 146–153 of the source.  Fields other than the accession
number may be absent (`None`). -/
structure FilingRecord where
  form : Option String
  accessionNumber : String
  filingDate : Option String
  reportDate : Option String
  document : Option String
  source : String
deriving DecidableEq, Repr

/-- A final filing result as built by `get_filings` (lines 193–199). -/
structure FilingResult where
  accessionNumber : String
  filingDate : String
  document : Option String
  link : String
  source : String
deriving DecidableEq, Repr

/-- The errors the pipeline can raise: `ValueError` for an unsupported form
or unknown ticker, `IndexError` from the recent loader's unguarded indexing,
`ValueError` from `strptime` on a malformed date, and `ValueError` from
`int()` on a non-numeric CIK string. -/
inductive AggError where
  | unsupportedForm
  | unknownTicker
  | indexError
  | malformedDate (s : String)
  | intParse (s : String)
deriving DecidableEq, Repr

/-- The `"recent"` section of the submissions JSON: parallel arrays.  The
upstream document also carries a `filingDate` array; the recent loader never
reads it (it reads only `form`, `accessionNumber`, `reportDate`,
`primaryDocument`). -/
structure RecentSection where
  form : List String
  accessionNumber : List String
  filingDate : List String
  reportDate : List String
  primaryDocument : List String
deriving DecidableEq, Repr

/-- A chunk document's parallel arrays (the branch taken when
`'accessionNumber' in data and isinstance(data['accessionNumber'], list)`);
the four other arrays default to `[]` when the key is missing. -/
structure ChunkArrays where
  accessionNumber : List String
  form : List String
  filingDate : List String
  reportDate : List String
  primaryDocument : List String
deriving DecidableEq, Repr

/-- The shapes a chunk JSON document can take: parallel arrays, the nested
pre-structured `filings` list fallback (records assumed to carry the five
standard keys; their `source` is overwritten with the chunk name), or
neither (the chunk contributes nothing). -/
inductive ChunkJson where
  | arrays (d : ChunkArrays)
  | nested (entries : List FilingRecord)
  | other
deriving DecidableEq, Repr

/-- The `filings` object of the submissions JSON: the recent section plus the
chunk references (`chunk.get('name')`, which may be absent). -/
structure SubmissionsFilings where
  recent : RecentSection
  files : List (Option String)

/-- The upstream network content seen by one aggregation call: the
submissions document for the entity and the JSON of each chunk by name. -/
structure Env where
  submissions : SubmissionsFilings
  chunkDoc : String → ChunkJson

/-! ### Constants of the source -/

/-- `VALID_FORM_TYPES` (lines 49–52). -/
def VALID_FORM_TYPES : List String :=
  ["10-K", "10-Q", "8-K", "20-F", "6-K", "S-1", "S-3",
   "13F", "424B2", "DEF 14A", "SC 13G", "SC 13D", "N-PORT", "N-CSR"]

/-- `ARCHIVE_BASE` (line 58). -/
def ARCHIVE_BASE : String := "https://www.sec.gov/Archives/edgar/data/"

/-! ### Ticker resolver -/

/-- Lookup in the ticker → CIK map built by `_load_cik_map` (keys are
upper-cased tickers; assumed key-unique, as a Python dict is). -/
def lookupAssoc : List (String × String) → String → Option String
  | [], _ => none
  | (k, v) :: rest, t => if k = t then some v else lookupAssoc rest t

/-- `get_cik(ticker)` (lines 74–82): upper-case the ticker and look it up;
`none` embeds the `Unknown ticker` `ValueError`. -/
def get_cik (cikMap : List (String × String)) (ticker : String) : Option String :=
  lookupAssoc cikMap (pyUpper ticker)

/-! ### Recent window loader (`_load_recent_entries`, lines 129–154) -/

/-- Build the record at index `i` of the recent section: each of the three
other arrays is indexed unguarded (`accessions[i]`, `report_dates[i]`,
`primary_docs[i]`), so a short array is an `IndexError`.  The report date
populates both the `filingDate` and the `reportDate` slot (lines 149–150),
and the source tag is the fixed string `"recent"`. -/
def recentEntry (r : RecentSection) (i : Nat) (frm : String) :
    Except AggError FilingRecord :=
  match r.accessionNumber[i]?, r.reportDate[i]?, r.primaryDocument[i]? with
  | some acc, some rd, some doc =>
    .ok { form := some frm, accessionNumber := acc, filingDate := some rd,
          reportDate := some rd, document := some doc, source := "recent" }
  | _, _, _ => .error .indexError

/-- The loop `for i, frm in enumerate(forms)` of the recent loader, carried
out from index `i` over the remaining forms. -/
def loadRecentAux (r : RecentSection) : Nat → List String → Except AggError (List FilingRecord)
  | _, [] => .ok []
  | i, frm :: rest =>
    match recentEntry r i frm with
    | .error e => .error e
    | .ok entry =>
      match loadRecentAux r (i + 1) rest with
      | .error e => .error e
      | .ok es => .ok (entry :: es)

/-- `_load_recent_entries`: decode the recent section's parallel arrays into
records (after the one network fetch of the submissions document). -/
def load_recent_entries (r : RecentSection) : Except AggError (List FilingRecord) :=
  loadRecentAux r 0 r.form

/-! ### Historical chunks loader (`_load_historical_entries`, lines 84–127) -/

/-- Decode one fetched chunk document (lines 106–126): the parallel-array
branch enumerates the accession-number array and guards every other array
with `arr[i] if i < len(arr) else None`; the nested fallback re-tags each
pre-structured record with the chunk name; anything else yields nothing. -/
def decodeChunk (name : String) : ChunkJson → List FilingRecord
  | .arrays d =>
    d.accessionNumber.enum.map (fun p =>
      { form := d.form[p.1]?, accessionNumber := p.2,
        filingDate := d.filingDate[p.1]?, reportDate := d.reportDate[p.1]?,
        document := d.primaryDocument[p.1]?, source := name })
  | .nested es => es.map (fun e => { e with source := name })
  | .other => []

/-- `_load_historical_entries`: one fetch for the submissions document, then
one fetch per named chunk (`if not chunk_name: continue` skips absent or
empty names without a fetch).  Returns the flat record list and the number of
network requests performed. -/
def load_historical_entries (env : Env) : List FilingRecord × Nat :=
  env.submissions.files.foldl
    (fun acc ref =>
      match ref with
      | none => acc
      | some name =>
        if name = "" then acc
        else (acc.1 ++ decodeChunk name (env.chunkDoc name), acc.2 + 1))
    ([], 1)

/-! ### Aggregator (`get_filings`, lines 156–205) -/

/-- `cutoff = datetime.utcnow().date() - timedelta(days=365 * years_back)`
(line 170), on day numbers. -/
def cutoffDate (today yearsBack : Nat) : Nat := today - 365 * yearsBack

/-- The body of the combine-and-filter loop (lines 179–199) for one record:
skip on form mismatch, skip on an absent or empty filing-date string, raise
on an unparseable one, skip dates before the cutoff, then build the archive
link `f"{ARCHIVE_BASE}{int(cik)}/{acc_nodash}/{entry['document']}"` and the
result dict. -/
def processEntry (formType cik : String) (cutoff : Nat) (e : FilingRecord) :
    Except AggError (Option FilingResult) :=
  if e.form = some formType then
    match e.filingDate with
    | none => .ok none
    | some s =>
      if s = "" then .ok none
      else
        match parseFilingDate s with
        | none => .error (.malformedDate s)
        | some d =>
          if d < cutoff then .ok none
          else
            match pyInt cik with
            | none => .error (.intParse cik)
            | some n =>
              .ok (some
                { accessionNumber := e.accessionNumber, filingDate := s,
                  document := e.document,
                  link := ARCHIVE_BASE ++ Nat.repr n ++ "/" ++
                    removeDashes e.accessionNumber ++ "/" ++ pyStrOpt e.document,
                  source := e.source })
  else .ok none

/-- The combine-and-filter loop over the concatenated feeds, stopping at the
first raised error as the Python loop does. -/
def combineFilter (formType cik : String) (cutoff : Nat) :
    List FilingRecord → Except AggError (List FilingResult)
  | [] => .ok []
  | e :: rest =>
    match processEntry formType cik cutoff e with
    | .error err => .error err
    | .ok none => combineFilter formType cik cutoff rest
    | .ok (some r) =>
      match combineFilter formType cik cutoff rest with
      | .error err => .error err
      | .ok rs => .ok (r :: rs)

/-- One step of building the Python dict
`{e['accessionNumber']: e for e in combined}`: a repeated key keeps its
original position but takes the later value. -/
def dedupInsert (acc : List FilingResult) (e : FilingResult) : List FilingResult :=
  if acc.any (fun x => decide (x.accessionNumber = e.accessionNumber)) then
    acc.map (fun x => if x.accessionNumber = e.accessionNumber then e else x)
  else acc ++ [e]

/-- The deduplication dict of line 202, then `unique.values()`: insertion
order of first occurrences, last value per key. -/
def dedupByAccession (l : List FilingResult) : List FilingResult :=
  l.foldl dedupInsert []

/-- The order used by
`sorted(unique.values(), key=lambda x: x['filingDate'], reverse=True)`:
`a` may precede `b` when `b`'s filing-date string is lexicographically at
most `a`'s. -/
def resBefore (a b : FilingResult) : Prop := strLe b.filingDate a.filingDate = true

instance : DecidableRel resBefore :=
  fun a b => Bool.decEq (strLe b.filingDate a.filingDate) true

/-- The descending stable sort of line 204.  Python's `sorted` with
`reverse=True` is the stable descending sort for this total preorder, and
every stable sort agrees with insertion sort on it. -/
def sortByDateDesc (l : List FilingResult) : List FilingResult :=
  List.insertionSort resBefore l

/-- `get_filings(ticker, form_type, years_back)` (lines 156–205), with
`today` the value of `datetime.utcnow().date()` as a day number.  Returns
the result (or the raised error) together with the number of network
requests performed during the call. -/
def get_filings (env : Env) (cikMap : List (String × String))
    (ticker formType : String) (yearsBack today : Nat) :
    Except AggError (List FilingResult) × Nat :=
  if formType ∈ VALID_FORM_TYPES then
    match get_cik cikMap ticker with
    | none => (.error .unknownTicker, 0)
    | some cik =>
      match load_recent_entries env.submissions.recent with
      | .error e => (.error e, 1)
      | .ok recents =>
        match combineFilter formType cik (cutoffDate today yearsBack)
            (recents ++ (load_historical_entries env).1) with
        | .error e => (.error e, 1 + (load_historical_entries env).2)
        | .ok results =>
          (.ok (sortByDateDesc (dedupByAccession results)),
           1 + (load_historical_entries env).2)
  else (.error .unsupportedForm, 0)

/-- Whether one record passes the combine-and-filter step and contributes a
result (`processEntry` yields a built result rather than a skip or an
error). -/
def keptByFilter (formType cik : String) (cutoff : Nat) (e : FilingRecord) : Bool :=
  match processEntry formType cik cutoff e with
  | .ok (some _) => true
  | _ => false

/-! ### Concrete inputs used to exercise the pipeline -/

/-- A one-entry CIK map, as `_load_cik_map` would build it. -/
def cikMapMSFT : List (String × String) := [("MSFT", "0000789019")]

/-- An upstream state in which the recent feed and one historical chunk both
carry accession number `0001-23-456`: the recent copy dated `2024-01-02`,
the historical copy dated `2024-01-01`. -/
def envDup : Env :=
  { submissions :=
      { recent :=
          { form := ["10-K"], accessionNumber := ["0001-23-456"],
            filingDate := [], reportDate := ["2024-01-02"],
            primaryDocument := ["a.htm"] },
        files := [some "chunk001"] },
    chunkDoc := fun n =>
      if n = "chunk001" then
        .arrays { accessionNumber := ["0001-23-456"], form := ["10-K"],
                  filingDate := ["2024-01-01"], reportDate := ["2024-01-01"],
                  primaryDocument := ["a.htm"] }
      else .other }

/-- An upstream state whose recent feed carries a record with the
unparseable filing-date string `bad-date` followed by a well-formed one. -/
def envBadDate : Env :=
  { submissions :=
      { recent :=
          { form := ["10-K", "10-K"], accessionNumber := ["acc-1", "acc-2"],
            filingDate := [], reportDate := ["bad-date", "2024-01-02"],
            primaryDocument := ["a.htm", "b.htm"] },
        files := [] },
    chunkDoc := fun _ => .other }

/-- An upstream state with three matching recent records dated
`2023-05-01`, `2024-01-10` and `2022-09-30`, in that feed order. -/
def envThree : Env :=
  { submissions :=
      { recent :=
          { form := ["10-K", "10-K", "10-K"],
            accessionNumber := ["acc-1", "acc-2", "acc-3"],
            filingDate := [],
            reportDate := ["2023-05-01", "2024-01-10", "2022-09-30"],
            primaryDocument := ["a.htm", "b.htm", "c.htm"] },
        files := [] },
    chunkDoc := fun _ => .other }

/-- An empty upstream state. -/
def envEmpty : Env :=
  { submissions :=
      { recent := { form := [], accessionNumber := [], filingDate := [],
                    reportDate := [], primaryDocument := [] },
        files := [] },
    chunkDoc := fun _ => .other }

/-- A recent-feed record whose filing-date string is non-empty but
unparseable. -/
def recBadDate : FilingRecord :=
  { form := some "10-K", accessionNumber := "acc-1",
    filingDate := some "bad-date", reportDate := some "bad-date",
    document := some "a.htm", source := "recent" }

/-- A matching record dated `2023-01-01`. -/
def recJan2023 : FilingRecord :=
  { form := some "10-K", accessionNumber := "acc-1",
    filingDate := some "2023-01-01", reportDate := some "2023-01-01",
    document := some "a.htm", source := "recent" }

/-- A matching record dated `2022-06-15`. -/
def recJun2022 : FilingRecord :=
  { form := some "10-K", accessionNumber := "acc-2",
    filingDate := some "2022-06-15", reportDate := some "2022-06-15",
    document := some "b.htm", source := "recent" }

/-- A matching record dated `2020-01-01`. -/
def recJan2020 : FilingRecord :=
  { form := some "10-K", accessionNumber := "acc-3",
    filingDate := some "2020-01-01", reportDate := some "2020-01-01",
    document := some "c.htm", source := "recent" }

/-- The result `envThree` yields for `acc-2` (dated 2024-01-10). -/
def resAcc2 : FilingResult :=
  { accessionNumber := "acc-2", filingDate := "2024-01-10",
    document := some "b.htm",
    link := "https://www.sec.gov/Archives/edgar/data/789019/acc2/b.htm",
    source := "recent" }

/-- The result `envThree` yields for `acc-1` (dated 2023-05-01). -/
def resAcc1 : FilingResult :=
  { accessionNumber := "acc-1", filingDate := "2023-05-01",
    document := some "a.htm",
    link := "https://www.sec.gov/Archives/edgar/data/789019/acc1/a.htm",
    source := "recent" }

/-- The result `envThree` yields for `acc-3` (dated 2022-09-30). -/
def resAcc3 : FilingResult :=
  { accessionNumber := "acc-3", filingDate := "2022-09-30",
    document := some "c.htm",
    link := "https://www.sec.gov/Archives/edgar/data/789019/acc3/c.htm",
    source := "recent" }

/-- The full result list for `envThree`, in output order. -/
def threeResults : List FilingResult := [resAcc2, resAcc1, resAcc3]

/-- The single record decoded from `recentSecDistinct`. -/
def oneRecentRecord : List FilingRecord :=
  [{ form := some "10-K", accessionNumber := "acc-1",
     filingDate := some "2024-01-02", reportDate := some "2024-01-02",
     document := some "a.htm", source := "recent" }]

/-- A recent section whose upstream `filingDate` array differs from its
`reportDate` array, to exhibit which one the loader reads. -/
def recentSecDistinct : RecentSection :=
  { form := ["10-K"], accessionNumber := ["acc-1"],
    filingDate := ["1999-09-09"], reportDate := ["2024-01-02"],
    primaryDocument := ["a.htm"] }

/-- A recent section whose accession-number array is shorter than its form
array. -/
def recentSecShort : RecentSection :=
  { form := ["10-K", "10-K"], accessionNumber := ["acc-1"],
    filingDate := [], reportDate := ["2024-01-01", "2024-01-02"],
    primaryDocument := ["a.htm", "b.htm"] }

/-- A historical chunk whose parallel arrays have unequal lengths. -/
def chunkMismatch : ChunkArrays :=
  { accessionNumber := ["acc-1", "acc-2"], form := ["10-K"],
    filingDate := [], reportDate := ["2024-01-01"],
    primaryDocument := ["a.htm", "b.htm"] }

/-! ### The string order is a total preorder -/

theorem charListLt_asymm : ∀ as bs : List Char,
    charListLt as bs = true → charListLt bs as = false
  | [], [] => by simp [charListLt]
  | [], _ :: _ => by simp [charListLt]
  | _ :: _, [] => by simp [charListLt]
  | a :: as, b :: bs => by
    simp only [charListLt]
    split_ifs with h1 h2 h3 <;> try omega
    all_goals simp_all
    exact charListLt_asymm as bs

theorem charListLt_resolve : ∀ (cs as bs : List Char), charListLt cs as = true →
    charListLt cs bs = true ∨ charListLt bs as = true
  | [], [], _ => by simp [charListLt]
  | [], _ :: _, [] => by simp [charListLt]
  | [], _ :: _, _ :: _ => by simp [charListLt]
  | _ :: _, [], _ => by simp [charListLt]
  | _ :: _, _ :: _, [] => by simp [charListLt]
  | c :: cs, a :: as, b :: bs => by
    simp only [charListLt]
    split_ifs with h1 h2 h3 h4 h5 h6 h7 h8 <;> try omega
    all_goals simp_all
    exact charListLt_resolve cs as bs

theorem strLe_total (a b : String) : strLe a b = true ∨ strLe b a = true := by
  by_contra h
  push_neg at h
  obtain ⟨h1, h2⟩ := h
  replace h1 : strLe a b = false := Bool.eq_false_iff.mpr h1
  replace h2 : strLe b a = false := Bool.eq_false_iff.mpr h2
  simp only [strLe, strLt, Bool.not_eq_false'] at h1 h2
  have := charListLt_asymm _ _ h1
  rw [this] at h2
  exact Bool.false_ne_true h2

theorem strLe_trans {a b c : String} (h1 : strLe a b = true) (h2 : strLe b c = true) :
    strLe a c = true := by
  simp only [strLe, strLt, Bool.not_eq_true'] at h1 h2 ⊢
  have h : charListLt c.toList a.toList = true ∨ charListLt c.toList a.toList = false := by
    cases charListLt c.toList a.toList <;> simp
  rcases h with h | h
  · rcases charListLt_resolve _ _ b.toList h with hcb | hba
    · rw [hcb] at h2; exact absurd h2 (by simp)
    · rw [hba] at h1; exact absurd h1 (by simp)
  · exact h

instance : IsTotal FilingResult resBefore :=
  ⟨fun a b => by
    unfold resBefore
    exact strLe_total b.filingDate a.filingDate⟩

instance : IsTrans FilingResult resBefore :=
  ⟨fun a b c h1 h2 => by
    unfold resBefore at h1 h2 ⊢
    exact strLe_trans h2 h1⟩

/-! ### Deduplication lemmas -/

theorem mem_dedupInsert (acc : List FilingResult) (e r : FilingResult)
    (h : r ∈ dedupInsert acc e) : r ∈ acc ∨ r = e := by
  unfold dedupInsert at h
  split at h
  · rcases List.mem_map.mp h with ⟨x, hx, hxr⟩
    by_cases hxe : x.accessionNumber = e.accessionNumber
    · right; rw [← hxr]; simp [hxe]
    · left; rw [← hxr]; simpa [hxe] using hx
  · rcases List.mem_append.mp h with h | h
    · exact Or.inl h
    · right; simpa using h

theorem keys_dedupInsert_of_mem (acc : List FilingResult) (e : FilingResult)
    (hmem : e.accessionNumber ∈ acc.map FilingResult.accessionNumber) :
    (dedupInsert acc e).map FilingResult.accessionNumber =
      acc.map FilingResult.accessionNumber := by
  unfold dedupInsert
  rw [if_pos]
  · rw [List.map_map]
    apply List.map_congr_left
    intro x hx
    by_cases hxe : x.accessionNumber = e.accessionNumber
    · simp [Function.comp, hxe]
    · simp [Function.comp, hxe]
  · rcases List.mem_map.mp hmem with ⟨x, hx, hxe⟩
    exact List.any_eq_true.mpr ⟨x, hx, decide_eq_true hxe⟩

theorem keys_dedupInsert_of_not_mem (acc : List FilingResult) (e : FilingResult)
    (hmem : e.accessionNumber ∉ acc.map FilingResult.accessionNumber) :
    (dedupInsert acc e).map FilingResult.accessionNumber =
      acc.map FilingResult.accessionNumber ++ [e.accessionNumber] := by
  have hany : ¬acc.any (fun x => decide (x.accessionNumber = e.accessionNumber)) = true := by
    intro hany
    rcases List.any_eq_true.mp hany with ⟨x, hx, hpx⟩
    exact hmem (List.mem_map.mpr ⟨x, hx, of_decide_eq_true hpx⟩)
  unfold dedupInsert
  rw [if_neg hany, List.map_append]
  simp

theorem nodup_keys_foldl_dedupInsert :
    ∀ (l acc : List FilingResult),
      (acc.map FilingResult.accessionNumber).Nodup →
      ((l.foldl dedupInsert acc).map FilingResult.accessionNumber).Nodup
  | [], acc, h => h
  | e :: l, acc, h => by
    rw [List.foldl_cons]
    apply nodup_keys_foldl_dedupInsert l
    by_cases hmem : e.accessionNumber ∈ acc.map FilingResult.accessionNumber
    · rw [keys_dedupInsert_of_mem acc e hmem]; exact h
    · rw [keys_dedupInsert_of_not_mem acc e hmem]
      simp [List.nodup_append, h, hmem]

theorem mem_keys_foldl_dedupInsert :
    ∀ (l acc : List FilingResult) (a : String),
      a ∈ (l.foldl dedupInsert acc).map FilingResult.accessionNumber ↔
        a ∈ acc.map FilingResult.accessionNumber ∨
          a ∈ l.map FilingResult.accessionNumber
  | [], acc, a => by simp
  | e :: l, acc, a => by
    rw [List.foldl_cons, mem_keys_foldl_dedupInsert l (dedupInsert acc e) a]
    by_cases hmem : e.accessionNumber ∈ acc.map FilingResult.accessionNumber
    · rw [keys_dedupInsert_of_mem acc e hmem]
      have hsub : a = e.accessionNumber → a ∈ acc.map FilingResult.accessionNumber :=
        fun h => h ▸ hmem
      simp only [List.map_cons, List.mem_cons]
      tauto
    · rw [keys_dedupInsert_of_not_mem acc e hmem]
      simp only [List.mem_append, List.mem_singleton, List.map_cons, List.mem_cons]
      tauto

theorem mem_foldl_dedupInsert :
    ∀ (l acc : List FilingResult) (r : FilingResult),
      r ∈ l.foldl dedupInsert acc → r ∈ acc ∨ r ∈ l
  | [], _, _, h => Or.inl h
  | e :: l, acc, r, h => by
    rw [List.foldl_cons] at h
    rcases mem_foldl_dedupInsert l (dedupInsert acc e) r h with h | h
    · rcases mem_dedupInsert acc e r h with h | h
      · exact Or.inl h
      · exact Or.inr (by simp [h])
    · exact Or.inr (List.mem_cons_of_mem e h)

theorem dedup_keys_nodup (l : List FilingResult) :
    ((dedupByAccession l).map FilingResult.accessionNumber).Nodup :=
  nodup_keys_foldl_dedupInsert l [] (by simp)

theorem dedup_keys_mem (l : List FilingResult) (a : String) :
    a ∈ (dedupByAccession l).map FilingResult.accessionNumber ↔
      a ∈ l.map FilingResult.accessionNumber := by
  simpa using mem_keys_foldl_dedupInsert l [] a

theorem dedup_subset (l : List FilingResult) (r : FilingResult)
    (h : r ∈ dedupByAccession l) : r ∈ l := by
  rcases mem_foldl_dedupInsert l [] r h with h | h
  · simp at h
  · exact h

/-! ### Sorting lemmas -/

theorem sortByDateDesc_perm (l : List FilingResult) :
    List.Perm (sortByDateDesc l) l :=
  List.perm_insertionSort resBefore l

theorem sortByDateDesc_pairwise (l : List FilingResult) :
    (sortByDateDesc l).Pairwise
      (fun a b => strLe b.filingDate a.filingDate = true) :=
  List.sorted_insertionSort resBefore l

/-! ### Filter-step lemmas -/

theorem processEntry_ok_some_inv (formType cik : String) (cutoff : Nat)
    (e : FilingRecord) (r : FilingResult)
    (h : processEntry formType cik cutoff e = .ok (some r)) :
    ∃ s d num, e.form = some formType ∧ e.filingDate = some s ∧ s ≠ "" ∧
      parseFilingDate s = some d ∧ cutoff ≤ d ∧ pyInt cik = some num ∧
      r = { accessionNumber := e.accessionNumber, filingDate := s,
            document := e.document,
            link := ARCHIVE_BASE ++ Nat.repr num ++ "/" ++
              removeDashes e.accessionNumber ++ "/" ++ pyStrOpt e.document,
            source := e.source } := by
  by_cases hf : e.form = some formType
  · rcases hd : e.filingDate with _ | s
    · simp only [processEntry, if_pos hf, hd] at h
      exact absurd h (by simp)
    · by_cases hs : s = ""
      · simp only [processEntry, if_pos hf, hd, if_pos hs] at h
        exact absurd h (by simp)
      · rcases hp : parseFilingDate s with _ | d
        · simp only [processEntry, if_pos hf, hd, if_neg hs, hp] at h
          exact absurd h (by simp)
        · by_cases hcut : d < cutoff
          · simp only [processEntry, if_pos hf, hd, if_neg hs, hp, if_pos hcut] at h
            exact absurd h (by simp)
          · rcases hn : pyInt cik with _ | num
            · simp only [processEntry, if_pos hf, hd, if_neg hs, hp,
                if_neg hcut, hn] at h
              exact absurd h (by simp)
            · simp only [processEntry, if_pos hf, hd, if_neg hs, hp,
                if_neg hcut, hn, Except.ok.injEq, Option.some.injEq] at h
              exact ⟨s, d, num, hf, rfl, hs, hp, Nat.le_of_not_lt hcut, rfl, h.symm⟩
  · simp only [processEntry, if_neg hf] at h
    exact absurd h (by simp)

theorem processEntry_ok_some_of (formType cik : String) (cutoff : Nat)
    (e : FilingRecord) (s : String) (d num : Nat)
    (hf : e.form = some formType) (hd : e.filingDate = some s) (hs : s ≠ "")
    (hp : parseFilingDate s = some d) (hcut : cutoff ≤ d)
    (hn : pyInt cik = some num) :
    processEntry formType cik cutoff e =
      .ok (some { accessionNumber := e.accessionNumber, filingDate := s,
                  document := e.document,
                  link := ARCHIVE_BASE ++ Nat.repr num ++ "/" ++
                    removeDashes e.accessionNumber ++ "/" ++ pyStrOpt e.document,
                  source := e.source }) := by
  simp only [processEntry, if_pos hf, hd, if_neg hs, hp,
    if_neg (Nat.not_lt.mpr hcut), hn]

theorem combineFilter_ok_mem (formType cik : String) (cutoff : Nat) :
    ∀ (es : List FilingRecord) (rs : List FilingResult),
      combineFilter formType cik cutoff es = .ok rs →
      ∀ r ∈ rs, ∃ e ∈ es, processEntry formType cik cutoff e = .ok (some r)
  | [], rs, h, r, hr => by
    simp only [combineFilter, Except.ok.injEq] at h
    rw [← h] at hr
    simp at hr
  | e :: es, rs, h, r, hr => by
    rcases hp : processEntry formType cik cutoff e with err | o
    · simp only [combineFilter, hp] at h
      exact absurd h (by simp)
    · rcases o with _ | r0
      · simp only [combineFilter, hp] at h
        rcases combineFilter_ok_mem formType cik cutoff es rs h r hr with ⟨e1, he1, hpe1⟩
        exact ⟨e1, List.mem_cons_of_mem e he1, hpe1⟩
      · rcases hrec : combineFilter formType cik cutoff es with err | rs0
        · simp only [combineFilter, hp, hrec] at h
          exact absurd h (by simp)
        · simp only [combineFilter, hp, hrec, Except.ok.injEq] at h
          rw [← h] at hr
          rcases List.mem_cons.mp hr with hr | hr
          · exact ⟨e, List.mem_cons_self e es, hr ▸ hp⟩
          · rcases combineFilter_ok_mem formType cik cutoff es rs0 hrec r hr with ⟨e1, he1, hpe1⟩
            exact ⟨e1, List.mem_cons_of_mem e he1, hpe1⟩

/-! ### Recent-loader lemmas -/

theorem recentEntry_ok_inv (r : RecentSection) (i : Nat) (frm : String)
    (e : FilingRecord) (h : recentEntry r i frm = .ok e) :
    ∃ acc rd doc, r.accessionNumber[i]? = some acc ∧ r.reportDate[i]? = some rd ∧
      r.primaryDocument[i]? = some doc ∧
      e = { form := some frm, accessionNumber := acc, filingDate := some rd,
            reportDate := some rd, document := some doc, source := "recent" } := by
  rcases ha : r.accessionNumber[i]? with _ | acc
  · simp only [recentEntry, ha] at h
    exact absurd h (by simp)
  · rcases hd : r.reportDate[i]? with _ | rd
    · simp only [recentEntry, ha, hd] at h
      exact absurd h (by simp)
    · rcases hp : r.primaryDocument[i]? with _ | doc
      · simp only [recentEntry, ha, hd, hp] at h
        exact absurd h (by simp)
      · simp only [recentEntry, ha, hd, hp, Except.ok.injEq] at h
        exact ⟨acc, rd, doc, rfl, rfl, rfl, h.symm⟩

theorem recentEntry_isOk_iff (r : RecentSection) (i : Nat) (frm : String) :
    (∃ e, recentEntry r i frm = .ok e) ↔
      (i < r.accessionNumber.length ∧ i < r.reportDate.length ∧
       i < r.primaryDocument.length) := by
  constructor
  · rintro ⟨e, he⟩
    rcases recentEntry_ok_inv r i frm e he with ⟨acc, rd, doc, ha, hd, hp, _⟩
    refine ⟨?_, ?_, ?_⟩
    · by_contra hlt
      rw [List.getElem?_eq_none (Nat.le_of_not_lt hlt)] at ha
      exact Option.noConfusion ha
    · by_contra hlt
      rw [List.getElem?_eq_none (Nat.le_of_not_lt hlt)] at hd
      exact Option.noConfusion hd
    · by_contra hlt
      rw [List.getElem?_eq_none (Nat.le_of_not_lt hlt)] at hp
      exact Option.noConfusion hp
  · rintro ⟨ha, hd, hp⟩
    refine ⟨{ form := some frm, accessionNumber := r.accessionNumber[i],
              filingDate := some (r.reportDate[i]), reportDate := some (r.reportDate[i]),
              document := some (r.primaryDocument[i]), source := "recent" }, ?_⟩
    simp only [recentEntry, List.getElem?_eq_getElem ha, List.getElem?_eq_getElem hd,
      List.getElem?_eq_getElem hp]

theorem recentEntry_error_inv (r : RecentSection) (i : Nat) (frm : String)
    (e : AggError) (h : recentEntry r i frm = .error e) : e = .indexError := by
  rcases ha : r.accessionNumber[i]? with _ | acc
  · simp only [recentEntry, ha, Except.error.injEq] at h
    exact h.symm
  · rcases hd : r.reportDate[i]? with _ | rd
    · simp only [recentEntry, ha, hd, Except.error.injEq] at h
      exact h.symm
    · rcases hp : r.primaryDocument[i]? with _ | doc
      · simp only [recentEntry, ha, hd, hp, Except.error.injEq] at h
        exact h.symm
      · simp only [recentEntry, ha, hd, hp] at h
        exact absurd h (by simp)

theorem loadRecentAux_ok_inv (r : RecentSection) :
    ∀ (fs : List String) (i : Nat) (l : List FilingRecord),
      loadRecentAux r i fs = .ok l →
      l.length = fs.length ∧ ∀ j e, l[j]? = some e →
        e.source = "recent" ∧ e.filingDate = r.reportDate[i + j]? ∧
        e.reportDate = e.filingDate
  | [], i, l, h => by
    simp only [loadRecentAux, Except.ok.injEq] at h
    refine ⟨by rw [← h]; rfl, ?_⟩
    intro j e he
    rw [← h] at he
    simp at he
  | frm :: fs, i, l, h => by
    rcases he : recentEntry r i frm with err | entry
    · simp only [loadRecentAux, he] at h
      exact absurd h (by simp)
    · rcases hrec : loadRecentAux r (i + 1) fs with err | es
      · simp only [loadRecentAux, he, hrec] at h
        exact absurd h (by simp)
      · simp only [loadRecentAux, he, hrec, Except.ok.injEq] at h
        rcases recentEntry_ok_inv r i frm entry he with ⟨acc, rd, doc, _, hd, _, hentry⟩
        have ih := loadRecentAux_ok_inv r fs (i + 1) es hrec
        subst h
        refine ⟨by simp [ih.1], ?_⟩
        intro j e hj
        rcases j with _ | j
        · simp only [List.getElem?_cons_zero, Option.some.injEq] at hj
          rw [← hj, hentry, Nat.add_zero, hd]
          exact ⟨rfl, rfl, rfl⟩
        · simp only [List.getElem?_cons_succ] at hj
          have step := ih.2 j e hj
          have hidx : i + 1 + j = i + (j + 1) := by omega
          rw [hidx] at step
          exact step

theorem loadRecentAux_isOk_iff (r : RecentSection) :
    ∀ (fs : List String) (i : Nat),
      (∃ l, loadRecentAux r i fs = .ok l) ↔
        ∀ j, j < fs.length →
          (i + j < r.accessionNumber.length ∧ i + j < r.reportDate.length ∧
           i + j < r.primaryDocument.length)
  | [], i => by
    constructor
    · intro _ j hj
      simp at hj
    · intro _
      exact ⟨[], rfl⟩
  | frm :: fs, i => by
    constructor
    · rintro ⟨l, hl⟩ j hj
      rcases he : recentEntry r i frm with err | entry
      · simp only [loadRecentAux, he] at hl
        exact absurd hl (by simp)
      · rcases hrec : loadRecentAux r (i + 1) fs with err | es
        · simp only [loadRecentAux, he, hrec] at hl
          exact absurd hl (by simp)
        · have hi := (recentEntry_isOk_iff r i frm).mp ⟨entry, he⟩
          rcases j with _ | j
          · simpa using hi
          · have hj' : j < fs.length := by
              simp only [List.length_cons] at hj
              omega
            have step := (loadRecentAux_isOk_iff r fs (i + 1)).mp ⟨es, hrec⟩ j hj'
            have hidx : i + 1 + j = i + (j + 1) := by omega
            rw [hidx] at step
            exact step
    · intro hbound
      have hi : i < r.accessionNumber.length ∧ i < r.reportDate.length ∧
          i < r.primaryDocument.length := by
        have := hbound 0 (by simp)
        simpa using this
      obtain ⟨entry, he⟩ := (recentEntry_isOk_iff r i frm).mpr hi
      obtain ⟨es, hrec⟩ := (loadRecentAux_isOk_iff r fs (i + 1)).mpr (by
        intro j hj
        have := hbound (j + 1) (by simp only [List.length_cons]; omega)
        have hidx : i + (j + 1) = i + 1 + j := by omega
        rw [hidx] at this
        exact this)
      exact ⟨entry :: es, by simp only [loadRecentAux, he, hrec]⟩

theorem loadRecentAux_error_inv (r : RecentSection) :
    ∀ (fs : List String) (i : Nat) (e : AggError),
      loadRecentAux r i fs = .error e → e = .indexError
  | [], _, _, h => by
    simp only [loadRecentAux] at h
    exact absurd h (by simp)
  | frm :: fs, i, e, h => by
    rcases he : recentEntry r i frm with err | entry
    · simp only [loadRecentAux, he, Except.error.injEq] at h
      rw [← h]
      exact recentEntry_error_inv r i frm err he
    · rcases hrec : loadRecentAux r (i + 1) fs with err | es
      · simp only [loadRecentAux, he, hrec, Except.error.injEq] at h
        rw [← h]
        exact loadRecentAux_error_inv r fs (i + 1) err hrec
      · simp only [loadRecentAux, he, hrec] at h
        exact absurd h (by simp)

theorem loadRecentAux_filingDate_irrel (r : RecentSection) (fd : List String) :
    ∀ (fs : List String) (i : Nat),
      loadRecentAux { r with filingDate := fd } i fs = loadRecentAux r i fs
  | [], _ => rfl
  | frm :: fs, i => by
    have hre : recentEntry { r with filingDate := fd } i frm = recentEntry r i frm := rfl
    simp only [loadRecentAux, hre, loadRecentAux_filingDate_irrel r fd fs (i + 1)]

/-! ### Aggregator inversion -/

theorem get_filings_ok_inv (env : Env) (cikMap : List (String × String))
    (ticker formType : String) (yearsBack today : Nat)
    (l : List FilingResult) (n : Nat)
    (h : get_filings env cikMap ticker formType yearsBack today = (.ok l, n)) :
    formType ∈ VALID_FORM_TYPES ∧
    ∃ cik recents results,
      get_cik cikMap ticker = some cik ∧
      load_recent_entries env.submissions.recent = .ok recents ∧
      combineFilter formType cik (cutoffDate today yearsBack)
        (recents ++ (load_historical_entries env).1) = .ok results ∧
      l = sortByDateDesc (dedupByAccession results) ∧
      n = 1 + (load_historical_entries env).2 := by
  by_cases hft : formType ∈ VALID_FORM_TYPES
  · refine ⟨hft, ?_⟩
    rcases hc : get_cik cikMap ticker with _ | cik
    · simp only [get_filings, if_pos hft, hc] at h
      exact absurd h (by simp)
    · rcases hr : load_recent_entries env.submissions.recent with err | recents
      · simp only [get_filings, if_pos hft, hc, hr] at h
        exact absurd h (by simp [Prod.ext_iff])
      · rcases hcf : combineFilter formType cik (cutoffDate today yearsBack)
            (recents ++ (load_historical_entries env).1) with err | results
        · simp only [get_filings, if_pos hft, hc, hr, hcf] at h
          exact absurd h (by simp [Prod.ext_iff])
        · simp only [get_filings, if_pos hft, hc, hr, hcf, Prod.mk.injEq,
            Except.ok.injEq] at h
          exact ⟨cik, recents, results, rfl, rfl, hcf, h.1.symm, h.2.symm⟩
  · simp only [get_filings, if_neg hft] at h
    exact absurd h (by simp [Prod.ext_iff])

/-! ### Claim theorems -/

/-- C1: the claim says that when both feeds carry the same accession number
and both records pass the filters, the surviving entry has source `"recent"`
and the recent feed's filing date.  The code's deduplication dict
`{e['accessionNumber']: e for e in combined}` iterates recent entries first,
so the later historical entry overwrites the recent one: on the
overlapping-accession input `envDup` the single output entry carries the
historical chunk's source tag and filing date, contradicting the claim and
the source's own comment `preferring recent if overlap`. -/
theorem c1_historical_overwrites_recent_on_duplicate :
    get_filings envDup cikMapMSFT "MSFT" "10-K" 1 (toOrdinal 2024 3 1) =
      (.ok [{ accessionNumber := "0001-23-456", filingDate := "2024-01-01",
              document := some "a.htm",
              link := "https://www.sec.gov/Archives/edgar/data/789019/000123456/a.htm",
              source := "chunk001" }], 3) := by decide

/-- C2: in every successful aggregation call the output's accession numbers
are pairwise distinct, and an accession number appears in the output exactly
when it appears among the records that survive the combine-and-filter
step. -/
theorem c2_accession_numbers_unique (env : Env) (cikMap : List (String × String))
    (ticker formType : String) (yearsBack today : Nat)
    (l : List FilingResult) (n : Nat)
    (h : get_filings env cikMap ticker formType yearsBack today = (.ok l, n)) :
    (l.map FilingResult.accessionNumber).Nodup ∧
    ∀ cik recents results,
      get_cik cikMap ticker = some cik →
      load_recent_entries env.submissions.recent = .ok recents →
      combineFilter formType cik (cutoffDate today yearsBack)
        (recents ++ (load_historical_entries env).1) = .ok results →
      ∀ a, a ∈ l.map FilingResult.accessionNumber ↔
        a ∈ results.map FilingResult.accessionNumber := by
  obtain ⟨hft, cik0, recents0, results0, hc0, hr0, hcf0, hl, hn⟩ :=
    get_filings_ok_inv env cikMap ticker formType yearsBack today l n h
  constructor
  · rw [hl]
    exact ((sortByDateDesc_perm (dedupByAccession results0)).map
      FilingResult.accessionNumber).nodup_iff.mpr (dedup_keys_nodup results0)
  · intro cik recents results hc hr hcf a
    rw [hc0] at hc
    injection hc with hc
    subst hc
    rw [hr0] at hr
    injection hr with hr
    subst hr
    rw [hcf0] at hcf
    injection hcf with hcf
    subst hcf
    rw [hl]
    exact Iff.trans ((sortByDateDesc_perm (dedupByAccession results0)).map
      FilingResult.accessionNumber).mem_iff (dedup_keys_mem results0 a)

/-- C2 witness: the theorem applied to the concrete three-record input. -/
theorem c2_witness :
    (get_filings envThree cikMapMSFT "MSFT" "10-K" 5 (toOrdinal 2024 3 1) =
      (.ok threeResults, 2)) ∧
    ((threeResults.map FilingResult.accessionNumber).Nodup ∧
     ∀ cik recents results,
       get_cik cikMapMSFT "MSFT" = some cik →
       load_recent_entries envThree.submissions.recent = .ok recents →
       combineFilter "10-K" cik (cutoffDate (toOrdinal 2024 3 1) 5)
         (recents ++ (load_historical_entries envThree).1) = .ok results →
       ∀ a, a ∈ threeResults.map FilingResult.accessionNumber ↔
         a ∈ results.map FilingResult.accessionNumber) :=
  ⟨by decide,
   c2_accession_numbers_unique envThree cikMapMSFT "MSFT" "10-K" 5
     (toOrdinal 2024 3 1) threeResults 2 (by decide)⟩

/-- C3 counterexample: the claim says a non-empty unparseable filing-date
string never makes `getFilings` fail.  On `envBadDate`, whose first matching
record carries the date string `bad-date`, the call raises the `strptime`
`ValueError` (the code has no handler around line 185), so the aggregation
fails instead of dropping the record. -/
theorem c3_counterexample_malformed_date_fails :
    (get_filings envBadDate cikMapMSFT "MSFT" "10-K" 5 (toOrdinal 2024 3 1)).1 =
      .error (.malformedDate "bad-date") := by decide

/-- C3 amended: a record whose filing-date field is absent or empty is
silently dropped by the filter step, but a record that passes the form
filter and carries a non-empty unparseable date string raises a hard
date-parse failure that aborts the aggregation call. -/
theorem c3_amended_malformed_date_raises (formType cik : String) (cutoff : Nat)
    (e : FilingRecord) :
    ((e.form ≠ some formType ∨ e.filingDate = none ∨ e.filingDate = some "") →
      processEntry formType cik cutoff e = .ok none) ∧
    (∀ s, e.form = some formType → e.filingDate = some s → s ≠ "" →
      parseFilingDate s = none →
      processEntry formType cik cutoff e = .error (.malformedDate s)) := by
  constructor
  · rintro (hf | hd | hd)
    · simp [processEntry, hf]
    · by_cases hf : e.form = some formType
      · simp [processEntry, hf, hd]
      · simp [processEntry, hf]
    · by_cases hf : e.form = some formType
      · simp [processEntry, hf, hd]
      · simp [processEntry, hf]
  · intro s hf hd hs hp
    simp only [processEntry, if_pos hf, hd, if_neg hs, hp]

/-- C3 witness: the amended theorem applied to the concrete record with
date string `bad-date`. -/
theorem c3_witness :
    recBadDate.form = some "10-K" ∧ recBadDate.filingDate = some "bad-date" ∧
    "bad-date" ≠ "" ∧ parseFilingDate "bad-date" = none ∧
    processEntry "10-K" "0000789019" 0 recBadDate =
      .error (.malformedDate "bad-date") :=
  ⟨rfl, rfl, by decide, by decide,
   (c3_amended_malformed_date_raises "10-K" "0000789019" 0 recBadDate).2
     "bad-date" rfl rfl (by decide) (by decide)⟩

/-- C4: a form type outside `VALID_FORM_TYPES` makes `get_filings` fail with
the unsupported-form error before anything else happens: the result is the
error and the network-request count of the call is zero. -/
theorem c4_unsupported_form_no_fetch (env : Env) (cikMap : List (String × String))
    (ticker formType : String) (yearsBack today : Nat)
    (h : formType ∉ VALID_FORM_TYPES) :
    get_filings env cikMap ticker formType yearsBack today =
      (.error .unsupportedForm, 0) := by
  simp only [get_filings, if_neg h]

/-- C4 witness: the theorem applied to the unsupported form type `FOO`. -/
theorem c4_witness :
    ("FOO" ∉ VALID_FORM_TYPES) ∧
    get_filings envEmpty cikMapMSFT "MSFT" "FOO" 1 0 =
      (.error .unsupportedForm, 0) :=
  ⟨by decide,
   c4_unsupported_form_no_fetch envEmpty cikMapMSFT "MSFT" "FOO" 1 0 (by decide)⟩

/-- C5: the cutoff is `today - 365 * yearsBack` days, and a record passes
the combine-and-filter step exactly when its form matches the requested one,
its filing-date string is present, non-empty and parseable, and the parsed
date is not earlier than the cutoff (given a numeric CIK string, which the
CIK map always supplies, and a cutoff that does not underflow the
calendar). -/
theorem c5_cutoff_and_filter_characterization (formType cik : String)
    (today yearsBack : Nat) (e : FilingRecord)
    (_hdom : 365 * yearsBack ≤ today) (hcik : ∃ m, pyInt cik = some m) :
    cutoffDate today yearsBack = today - 365 * yearsBack ∧
    (keptByFilter formType cik (cutoffDate today yearsBack) e = true ↔
      (e.form = some formType ∧ ∃ s d, e.filingDate = some s ∧ s ≠ "" ∧
        parseFilingDate s = some d ∧ cutoffDate today yearsBack ≤ d)) := by
  refine ⟨rfl, ?_⟩
  constructor
  · intro hkept
    rcases hpe : processEntry formType cik (cutoffDate today yearsBack) e with err | o
    · rw [keptByFilter, hpe] at hkept
      exact absurd hkept (by simp)
    · rcases o with _ | r
      · rw [keptByFilter, hpe] at hkept
        exact absurd hkept (by simp)
      · obtain ⟨s, d, num, hf, hd, hs, hp, hcut, _, _⟩ :=
          processEntry_ok_some_inv formType cik (cutoffDate today yearsBack) e r hpe
        exact ⟨hf, s, d, hd, hs, hp, hcut⟩
  · rintro ⟨hf, s, d, hd, hs, hp, hcut⟩
    obtain ⟨num, hn⟩ := hcik
    rw [keptByFilter,
      processEntry_ok_some_of formType cik (cutoffDate today yearsBack) e s d num
        hf hd hs hp hcut hn]

/-- C5 witness: on reference date 2024-01-01 with `yearsBack = 2`, the
records dated 2023-01-01 and 2022-06-15 pass the filter and the one dated
2020-01-01 is dropped. -/
theorem c5_witness :
    365 * 2 ≤ toOrdinal 2024 1 1 ∧ (∃ m, pyInt "0000789019" = some m) ∧
    (cutoffDate (toOrdinal 2024 1 1) 2 = toOrdinal 2024 1 1 - 365 * 2 ∧
     (keptByFilter "10-K" "0000789019" (cutoffDate (toOrdinal 2024 1 1) 2)
        recJan2023 = true ↔
       (recJan2023.form = some "10-K" ∧ ∃ s d, recJan2023.filingDate = some s ∧
         s ≠ "" ∧ parseFilingDate s = some d ∧
         cutoffDate (toOrdinal 2024 1 1) 2 ≤ d))) ∧
    keptByFilter "10-K" "0000789019" (cutoffDate (toOrdinal 2024 1 1) 2)
      recJan2023 = true ∧
    keptByFilter "10-K" "0000789019" (cutoffDate (toOrdinal 2024 1 1) 2)
      recJun2022 = true ∧
    keptByFilter "10-K" "0000789019" (cutoffDate (toOrdinal 2024 1 1) 2)
      recJan2020 = false :=
  ⟨by decide, ⟨789019, by decide⟩,
   c5_cutoff_and_filter_characterization "10-K" "0000789019" (toOrdinal 2024 1 1)
     2 recJan2023 (by decide) ⟨789019, by decide⟩,
   by decide, by decide, by decide⟩

/-- C6: every successful aggregation call returns a list sorted by the
filing-date string in descending lexicographic (code-point) order. -/
theorem c6_sorted_by_filingDate_descending (env : Env)
    (cikMap : List (String × String)) (ticker formType : String)
    (yearsBack today : Nat) (l : List FilingResult) (n : Nat)
    (h : get_filings env cikMap ticker formType yearsBack today = (.ok l, n)) :
    l.Pairwise (fun a b => strLe b.filingDate a.filingDate = true) := by
  obtain ⟨_, cik, recents, results, _, _, _, hl, _⟩ :=
    get_filings_ok_inv env cikMap ticker formType yearsBack today l n h
  rw [hl]
  exact sortByDateDesc_pairwise (dedupByAccession results)

/-- C6 witness: the feed order 2023-05-01, 2024-01-10, 2022-09-30 comes out
as 2024-01-10, 2023-05-01, 2022-09-30. -/
theorem c6_witness :
    (get_filings envThree cikMapMSFT "MSFT" "10-K" 5 (toOrdinal 2024 3 1) =
      (.ok threeResults, 2)) ∧
    threeResults.Pairwise (fun a b => strLe b.filingDate a.filingDate = true) :=
  ⟨by decide,
   c6_sorted_by_filingDate_descending envThree cikMapMSFT "MSFT" "10-K" 5
     (toOrdinal 2024 3 1) threeResults 2 (by decide)⟩

/-- C7: every record a successful aggregation call outputs carries the link
`ARCHIVE_BASE ++ <cik as decimal, no leading zeros> ++ "/" ++ <accession
number with dashes removed> ++ "/" ++ <primary document name>`. -/
theorem c7_link_format (env : Env) (cikMap : List (String × String))
    (ticker formType : String) (yearsBack today : Nat)
    (l : List FilingResult) (n : Nat)
    (h : get_filings env cikMap ticker formType yearsBack today = (.ok l, n))
    (r : FilingResult) (hr : r ∈ l) :
    ∃ cik num, get_cik cikMap ticker = some cik ∧ pyInt cik = some num ∧
      r.link = ARCHIVE_BASE ++ Nat.repr num ++ "/" ++
        removeDashes r.accessionNumber ++ "/" ++ pyStrOpt r.document := by
  obtain ⟨hft, cik, recents, results, hc, hrr, hcf, hl, hn⟩ :=
    get_filings_ok_inv env cikMap ticker formType yearsBack today l n h
  rw [hl] at hr
  have hr2 : r ∈ dedupByAccession results :=
    (sortByDateDesc_perm (dedupByAccession results)).mem_iff.mp hr
  have hr3 : r ∈ results := dedup_subset results r hr2
  obtain ⟨e, he, hpe⟩ := combineFilter_ok_mem formType cik
    (cutoffDate today yearsBack) (recents ++ (load_historical_entries env).1)
    results hcf r hr3
  obtain ⟨s, d, num, _, _, _, _, _, hn', hrec⟩ :=
    processEntry_ok_some_inv formType cik (cutoffDate today yearsBack) e r hpe
  refine ⟨cik, num, hc, hn', ?_⟩
  rw [hrec]

/-- C7 witness: the link of the top result of the three-record run. -/
theorem c7_witness :
    (get_filings envThree cikMapMSFT "MSFT" "10-K" 5 (toOrdinal 2024 3 1) =
      (.ok threeResults, 2)) ∧ resAcc2 ∈ threeResults ∧
    (∃ cik num, get_cik cikMapMSFT "MSFT" = some cik ∧ pyInt cik = some num ∧
      resAcc2.link = ARCHIVE_BASE ++ Nat.repr num ++ "/" ++
        removeDashes resAcc2.accessionNumber ++ "/" ++ pyStrOpt resAcc2.document) :=
  ⟨by decide, by decide,
   c7_link_format envThree cikMapMSFT "MSFT" "10-K" 5 (toOrdinal 2024 3 1)
     threeResults 2 (by decide) resAcc2 (by decide)⟩

/-- C8: every record the recent loader produces is tagged `"recent"` and has
both its filing-date and report-date slots populated from the upstream
report-date array; the upstream filing-date array is never consulted (the
loader's output is invariant under replacing it). -/
theorem c8_recent_reader_uses_reportDate (r : RecentSection)
    (l : List FilingRecord) (h : load_recent_entries r = .ok l) :
    (∀ fd, load_recent_entries { r with filingDate := fd } = .ok l) ∧
    l.length = r.form.length ∧
    ∀ (i : Nat) (e : FilingRecord), l[i]? = some e →
      e.source = "recent" ∧ e.filingDate = r.reportDate[i]? ∧
      e.reportDate = e.filingDate := by
  have inv := loadRecentAux_ok_inv r r.form 0 l h
  refine ⟨?_, inv.1, ?_⟩
  · intro fd
    unfold load_recent_entries
    rw [show ({ r with filingDate := fd } : RecentSection).form = r.form from rfl,
      loadRecentAux_filingDate_irrel r fd r.form 0]
    exact h
  · intro i e he
    have step := inv.2 i e he
    simpa using step

/-- C8 witness: the loader applied to a section whose filing-date and
report-date arrays differ; the record carries the report date. -/
theorem c8_witness :
    (load_recent_entries recentSecDistinct = .ok oneRecentRecord) ∧
    ((∀ fd, load_recent_entries { recentSecDistinct with filingDate := fd } =
        .ok oneRecentRecord) ∧
     oneRecentRecord.length = recentSecDistinct.form.length ∧
     ∀ (i : Nat) (e : FilingRecord), oneRecentRecord[i]? = some e →
       e.source = "recent" ∧ e.filingDate = recentSecDistinct.reportDate[i]? ∧
       e.reportDate = e.filingDate) :=
  ⟨by decide,
   c8_recent_reader_uses_reportDate recentSecDistinct oneRecentRecord (by decide)⟩

/-- C9: decoding a parallel-array chunk is total over the accession-number
array: one record per accession index, and every field whose array is
shorter than the index comes out absent rather than failing. -/
theorem c9_chunk_decode_total (name : String) (d : ChunkArrays) :
    (decodeChunk name (.arrays d)).length = d.accessionNumber.length ∧
    ∀ i, i < d.accessionNumber.length → ∃ e : FilingRecord,
      (decodeChunk name (.arrays d))[i]? = some e ∧
      d.accessionNumber[i]? = some e.accessionNumber ∧
      e.form = d.form[i]? ∧ e.filingDate = d.filingDate[i]? ∧
      e.reportDate = d.reportDate[i]? ∧ e.document = d.primaryDocument[i]? ∧
      e.source = name ∧
      (d.form.length ≤ i → e.form = none) ∧
      (d.filingDate.length ≤ i → e.filingDate = none) ∧
      (d.reportDate.length ≤ i → e.reportDate = none) ∧
      (d.primaryDocument.length ≤ i → e.document = none) := by
  constructor
  · simp [decodeChunk]
  · intro i hi
    refine ⟨{ form := d.form[i]?, accessionNumber := d.accessionNumber[i],
              filingDate := d.filingDate[i]?, reportDate := d.reportDate[i]?,
              document := d.primaryDocument[i]?, source := name },
      ?_, ?_, rfl, rfl, rfl, rfl, rfl, ?_, ?_, ?_, ?_⟩
    · simp only [decodeChunk, List.getElem?_map, List.getElem?_enum,
        List.getElem?_eq_getElem hi, Option.map_some']
    · rw [List.getElem?_eq_getElem hi]
    · intro hle; exact List.getElem?_eq_none hle
    · intro hle; exact List.getElem?_eq_none hle
    · intro hle; exact List.getElem?_eq_none hle
    · intro hle; exact List.getElem?_eq_none hle

/-- C9 witness: index 1 of the mismatched chunk decodes with absent form,
filing-date and report-date fields. -/
theorem c9_witness :
    1 < chunkMismatch.accessionNumber.length ∧
    (∃ e : FilingRecord,
      (decodeChunk "c1" (.arrays chunkMismatch))[1]? = some e ∧
      chunkMismatch.accessionNumber[1]? = some e.accessionNumber ∧
      e.form = chunkMismatch.form[1]? ∧
      e.filingDate = chunkMismatch.filingDate[1]? ∧
      e.reportDate = chunkMismatch.reportDate[1]? ∧
      e.document = chunkMismatch.primaryDocument[1]? ∧
      e.source = "c1" ∧
      (chunkMismatch.form.length ≤ 1 → e.form = none) ∧
      (chunkMismatch.filingDate.length ≤ 1 → e.filingDate = none) ∧
      (chunkMismatch.reportDate.length ≤ 1 → e.reportDate = none) ∧
      (chunkMismatch.primaryDocument.length ≤ 1 → e.document = none)) :=
  ⟨by decide, (c9_chunk_decode_total "c1" chunkMismatch).2 1 (by decide)⟩

/-- C10: the recent loader succeeds exactly when the accession-number,
report-date and primary-document arrays are each at least as long as the
form array; otherwise it raises the index error. -/
theorem c10_recent_loader_partiality (r : RecentSection) :
    ((∃ l, load_recent_entries r = .ok l) ↔
      (r.form.length ≤ r.accessionNumber.length ∧
       r.form.length ≤ r.reportDate.length ∧
       r.form.length ≤ r.primaryDocument.length)) ∧
    (¬(r.form.length ≤ r.accessionNumber.length ∧
       r.form.length ≤ r.reportDate.length ∧
       r.form.length ≤ r.primaryDocument.length) →
      load_recent_entries r = .error .indexError) := by
  have hiff : (∃ l, load_recent_entries r = .ok l) ↔
      ∀ j, j < r.form.length →
        (j < r.accessionNumber.length ∧ j < r.reportDate.length ∧
         j < r.primaryDocument.length) := by
    have h0 := loadRecentAux_isOk_iff r r.form 0
    simpa using h0
  have hbound : (∀ j, j < r.form.length →
      (j < r.accessionNumber.length ∧ j < r.reportDate.length ∧
       j < r.primaryDocument.length)) ↔
      (r.form.length ≤ r.accessionNumber.length ∧
       r.form.length ≤ r.reportDate.length ∧
       r.form.length ≤ r.primaryDocument.length) := by
    constructor
    · intro hb
      rcases Nat.eq_zero_or_pos r.form.length with h0 | hpos
      · simp [h0]
      · have := hb (r.form.length - 1) (by omega)
        omega
    · intro hb j hj
      omega
  refine ⟨hiff.trans hbound, ?_⟩
  intro hnot
  rcases hres : load_recent_entries r with err | l
  · rw [loadRecentAux_error_inv r r.form 0 err hres]
  · exact absurd ((hiff.trans hbound).mp ⟨l, hres⟩) hnot

/-- C10 witness: a recent section whose accession-number array is shorter
than its form array makes the loader raise the index error. -/
theorem c10_witness :
    ¬(recentSecShort.form.length ≤ recentSecShort.accessionNumber.length ∧
      recentSecShort.form.length ≤ recentSecShort.reportDate.length ∧
      recentSecShort.form.length ≤ recentSecShort.primaryDocument.length) ∧
    load_recent_entries recentSecShort = .error .indexError :=
  ⟨by decide, (c10_recent_loader_partiality recentSecShort).2 (by decide)⟩

end SECAgent
